import Mathlib

/-!
Verification development for kitty's line module (`src/kitty/line.c`).

The C code is shallowly embedded: machine integers become `Nat` (with explicit
masking where the C masks), C structs become Lean structures, loops become
fuel-indexed structural recursions (the fuel is always at least the number of
iterations the C loop can perform, since every loop in this file advances its
index by at least one per iteration), and fallible operations return
`Except`/`Option` values or error-tagged results.

External collaborators that `line.c` calls but whose code is not part of the
line module (the text cache, the small inline cell helpers from the headers,
the cursor conversion helpers and the option table) are modelled from the
specification; each such definition carries a doc comment starting with
"Modelled from the spec:".
-/

set_option maxRecDepth 4000

namespace KittyLine

/-- Modelled from the spec: MultiCellData for a multi-cell glyph — logical
width in cells, integer scale factor, subscale flag (spec section 3.4). -/
structure MultiCellData where
  width : Nat
  scale : Nat
  subscale : Nat
deriving DecidableEq, Repr

instance : Inhabited MultiCellData := ⟨⟨1, 1, 0⟩⟩

/-- Modelled from the spec: one interned entry of the external text cache — a
code-point sequence behind a stable integer index; for multi-cell glyphs the
cache also records the glyph's MultiCellData (spec sections 2.1 and 3.4). -/
structure TCEntry where
  chars : List Nat
  mcd : MultiCellData
deriving DecidableEq, Repr

instance : Inhabited TCEntry := ⟨⟨[], default⟩⟩

/-- Modelled from the spec: the external text cache, a pool of interned
code-point sequences indexed by position (spec section 2.1). -/
abbrev TextCache : Type := List TCEntry

/-- CPUCell from line.c / the line data model: per-column textual state. -/
structure CPUCell where
  ch_or_idx : Nat
  ch_is_idx : Bool
  is_multicell : Bool
  x : Nat
  y : Nat
  hyperlink_id : Nat
  next_char_was_wrapped : Bool
deriving DecidableEq, Repr

instance : Inhabited CPUCell := ⟨⟨0, false, false, 0, 0, 0, false⟩⟩

/-- The packed per-cell attribute word of a GPUCell, split into its bitfields. -/
structure CellAttrs where
  bold : Bool
  dim : Bool
  italic : Bool
  reverse : Bool
  strike : Bool
  decoration : Nat
  mark : Nat
deriving DecidableEq, Repr

instance : Inhabited CellAttrs := ⟨⟨false, false, false, false, false, 0, 0⟩⟩

/-- GPUCell from line.c: per-column styling plus sprite coordinates. -/
structure GPUCell where
  fg : Nat
  bg : Nat
  decoration_fg : Nat
  attrs : CellAttrs
  sprite_x : Nat
  sprite_y : Nat
  sprite_z : Nat
deriving DecidableEq, Repr

instance : Inhabited GPUCell := ⟨⟨0, 0, 0, default, 0, 0, 0⟩⟩

/-- The all-zero GPU cell, `static const GPUCell blank_cell = { 0 }` in
line_as_ansi. -/
def blank_gpu_cell : GPUCell := default

/-- The per-line prompt kind stored in the line's attributes word. -/
inductive PromptKind where
  | unknown
  | promptStart
  | secondaryPrompt
  | outputStart
deriving DecidableEq, Repr

/-- Line from line.c: the two parallel cell arrays of length xnum, the prompt
kind from the per-line attributes, and the shared text cache. -/
structure Line where
  xnum : Nat
  cpu_cells : List CPUCell
  gpu_cells : List GPUCell
  prompt_kind : PromptKind
  text_cache : TextCache
deriving DecidableEq, Repr

/-- Read of `self->cpu_cells[i]`. -/
def cpuAt (l : Line) (i : Nat) : CPUCell := l.cpu_cells.getD i default

/-- Read of `self->gpu_cells[i]`. -/
def gpuAt (l : Line) (i : Nat) : GPUCell := l.gpu_cells.getD i default

/-- Modelled from the spec: text-cache lookup by index yields the interned
code-point list (spec section 2.1, `tc_chars_at_index`). -/
def tc_chars_at (tc : TextCache) (idx : Nat) : List Nat := (tc.getD idx default).chars

/-- text_in_cell from the line headers: the cell's logical code-point sequence —
the cached list when `ch_is_idx`, else the single inline code point. -/
def text_in_cell (c : CPUCell) (tc : TextCache) : List Nat :=
  if c.ch_is_idx then tc_chars_at tc c.ch_or_idx else [c.ch_or_idx]

/-- Modelled from the spec: `cell_multicell_data` reads the MultiCellData the
cache stores alongside a multi-cell entry (spec section 3.4). -/
def cell_multicell_data (c : CPUCell) (tc : TextCache) : MultiCellData :=
  (tc.getD c.ch_or_idx default).mcd

/-- cell_is_char from the line headers: the cell holds exactly the given single
inline code point (not a cache index). -/
def cell_is_char (c : CPUCell) (ch : Nat) : Bool :=
  !c.ch_is_idx && c.ch_or_idx == ch

/-- cell_has_text from the line headers: a cell is non-blank — it carries a
cache index or a nonzero inline code point (spec section 3.1: a cell with
`ch_or_idx = 0` and `ch_is_idx = false` is blank). -/
def cell_has_text (c : CPUCell) : Bool :=
  c.ch_is_idx || c.ch_or_idx != 0

/-- A continuation cell of a multi-cell glyph: covered by the glyph but not its
top-left anchor (spec section 3.1). -/
def is_continuation_cell (c : CPUCell) : Bool :=
  c.is_multicell && (c.x != 0 || c.y != 0)

/-- Modelled from the spec: `xlimit_for_line`, the per-line serialization
limit referenced (but not defined) by the spec in section 4.2 — the column
count with trailing textless cells trimmed. -/
def xlim_go (l : Line) : Nat → Nat
  | 0 => 0
  | n + 1 => if cell_has_text (cpuAt l n) then n + 1 else xlim_go l n

/-- Modelled from the spec: see `xlim_go`. -/
def xlimit_for_line (l : Line) : Nat := xlim_go l l.xnum

/-- The space-cell consuming loop shared by the tab handling of
`unicode_in_range` and `line_as_ansi`:
`while (num && i+1 < limit && cell_is_char(cpu+i+1, ' ')) { i++; num--; }`.
Returns the final cell index. -/
def skipSpaces (l : Line) (limit : Nat) : Nat → Nat → Nat
  | i, 0 => i
  | i, k + 1 =>
    if i + 1 < limit ∧ cell_is_char (cpuAt l (i + 1)) 32 then skipSpaces l limit (i + 1) k
    else i

/-- The cell loop of `unicode_in_range` (line.c lines 320-342), fuel-indexed.
The C writes each cell's text into a shared buffer and then decides how many of
the written code points to keep (`n` accounting); the model appends exactly the
kept code points. A cache entry with an empty code-point list would make the C
read an unwritten buffer byte; the model reads that unspecified byte as 0, and
no theorem below touches that case. -/
def uir_go (l : Line) (limit : Nat) (include_cc skip_zero : Bool) : Nat → Nat → List Nat
  | 0, _ => []
  | fuel + 1, i =>
    if i < limit then
      let c := cpuAt l i
      let chars := text_in_cell c l.text_cache
      if is_continuation_cell c then uir_go l limit include_cc skip_zero fuel (i + 1)
      else if chars.headD 0 = 0 ∧ skip_zero then uir_go l limit include_cc skip_zero fuel (i + 1)
      else
        let chars := if chars.headD 0 = 0 then 32 :: chars.tail else chars
        if chars.headD 0 = 9 then
          let k := if 1 < chars.length then chars.getD 1 0 else 0
          9 :: uir_go l limit include_cc skip_zero fuel (skipSpaces l limit i k + 1)
        else
          (if include_cc then chars else chars.take 1) ++
            uir_go l limit include_cc skip_zero fuel (i + 1)
    else []

/-- unicode_in_range (line.c lines 316-345). The trailing-newline branch in C
additionally requires the global buffer to have a free slot; the model's buffer
is unbounded so the condition is omitted (no claim depends on it). The fuel
`limit` bounds the iteration count: the index strictly increases each pass. -/
def unicode_in_range (l : Line) (start limit : Nat)
    (include_cc add_trailing_newline skip_zero_cells : Bool) : List Nat :=
  let body := uir_go l limit include_cc skip_zero_cells limit start
  if add_trailing_newline ∧ ¬(cpuAt l (l.xnum - 1)).next_char_was_wrapped then body ++ [10]
  else body

/-! ## SGR delta encoding (line.c lines 738-796) -/

/-- DECORATION_FG_CODE, the SGR code for the underline (decoration) colour;
58 per the standard underline-colour extension the module emits
(spec section 6.1). -/
def DECORATION_FG_CODE : Nat := 58

/-- Decimal digits of a nonnegative integer, most significant first
(the digit order `nonnegative_integer_as_utf32` produces). -/
def natChars (n : Nat) : List Char := Nat.toDigits 10 n

/-- color_as_sgr (line.c lines 738-752). `val` is a 32-bit colour whose low
byte is the palette kind. The C `snprintf` buffer is large enough for every
value a 32-bit colour can produce, so the model drops the size bound. -/
def color_as_sgr (val simple_code aix_code complex_code : Nat) : List Char :=
  if val % 256 = 1 then
    let v := val / 256
    if v < 16 ∧ simple_code ≠ 0 then
      natChars (if v < 8 then simple_code + v else aix_code + (v - 8)) ++ [';']
    else natChars complex_code ++ [':', '5', ':'] ++ natChars v ++ [';']
  else if val % 256 = 2 then
    natChars complex_code ++ [':', '2', ':'] ++ natChars (val / 2 ^ 24 % 256) ++ [':'] ++
      natChars (val / 2 ^ 16 % 256) ++ [':'] ++ natChars (val / 2 ^ 8 % 256) ++ [';']
  else natChars (complex_code + 1) ++ [';']

/-- decoration_as_sgr (line.c lines 754-764). Note that the strings for
decorations 4 and 5 lack the trailing semicolon the other branches carry. -/
def decoration_as_sgr (decoration : Nat) : List Char :=
  if decoration = 1 then ['4', ';']
  else if decoration = 2 then ['4', ':', '2', ';']
  else if decoration = 3 then ['4', ':', '3', ';']
  else if decoration = 4 then ['4', ':', '4']
  else if decoration = 5 then ['4', ':', '5']
  else ['2', '4', ';']

/-- cell_as_sgr (line.c lines 767-796): the SGR delta between a cell and the
previous cell, with the final character removed when anything was written
(`*(p - 1) = 0;  // remove trailing semi-colon`). The C's 128-byte buffer
cannot overflow for 32-bit colour fields, so the size guard is dropped. -/
def cell_as_sgr (cell prev : GPUCell) : List Char :=
  let s1 :=
    if cell.attrs.bold ≠ prev.attrs.bold ∨ cell.attrs.dim ≠ prev.attrs.dim then
      if cell.attrs.bold ∧ cell.attrs.dim then
        (if ¬prev.attrs.bold then ['1', ';'] else []) ++
          (if ¬prev.attrs.dim then ['2', ';'] else [])
      else
        ['2', '2', ';'] ++ (if cell.attrs.bold then ['1', ';'] else []) ++
          (if cell.attrs.dim then ['2', ';'] else [])
    else []
  let s2 := if cell.attrs.italic ≠ prev.attrs.italic then
      (if cell.attrs.italic then ['3', ';'] else ['2', '3', ';']) else []
  let s3 := if cell.attrs.reverse ≠ prev.attrs.reverse then
      (if cell.attrs.reverse then ['7', ';'] else ['2', '7', ';']) else []
  let s4 := if cell.attrs.strike ≠ prev.attrs.strike then
      (if cell.attrs.strike then ['9', ';'] else ['2', '9', ';']) else []
  let s5 := if cell.fg ≠ prev.fg then color_as_sgr cell.fg 30 90 38 else []
  let s6 := if cell.bg ≠ prev.bg then color_as_sgr cell.bg 40 100 48 else []
  let s7 := if cell.decoration_fg ≠ prev.decoration_fg then
      color_as_sgr cell.decoration_fg 0 0 DECORATION_FG_CODE else []
  let s8 := if cell.attrs.decoration ≠ prev.attrs.decoration then
      decoration_as_sgr cell.attrs.decoration else []
  let s := s1 ++ s2 ++ s3 ++ s4 ++ s5 ++ s6 ++ s7 ++ s8
  if s = [] then s else s.dropLast

/-! ## ANSI serialization (line.c lines 30-93 and 361-476) -/

/-- Modelled from the spec: the attribute comparison mask SGR_MASK used by
line_as_ansi covers the SGR-relevant bitfields (bold, dim, italic, reverse,
strike, decoration) and excludes the mark bits, which no SGR code carries
(spec sections 3.2 and 4.2). -/
def sgr_attrs_differ (a b : CellAttrs) : Bool :=
  a.bold != b.bold || a.dim != b.dim || a.italic != b.italic ||
    a.reverse != b.reverse || a.strike != b.strike || a.decoration != b.decoration

/-- The guard of the SGR branch in the line_as_ansi loop:
`CMP_ATTRS || CMP(fg) || CMP(bg) || CMP(decoration_fg)`. -/
def sgr_changed (cell prev : GPUCell) : Bool :=
  sgr_attrs_differ cell.attrs prev.attrs || cell.fg != prev.fg || cell.bg != prev.bg ||
    cell.decoration_fg != prev.decoration_fg

/-- Modelled from the spec: the digits of TEXT_SIZE_CODE, the OSC number of the
multi-cell glyph wrapper (spec sections 4.2 and 6.1); kitty's text-sizing
protocol uses OSC 66. No claim depends on the numeric value. -/
def text_size_code_digits : List Nat := [54, 54]

/-- Decimal digits of a nonnegative integer as code points, most significant
first: nonnegative_integer_as_utf32 (line.c lines 30-54). -/
def nat_digits (n : Nat) : List Nat := (natChars n).map Char.toNat

/-- write_multicell_ansi_prefix (line.c lines 56-77): the OSC head
`ESC ] <TEXT_SIZE_CODE> ; [w=<n>:][s=<n>:][S=<n>:] ;` with a trailing colon of
the parameter list stripped. -/
def write_multicell_ansi_osc (mcd : MultiCellData) : List Nat :=
  let params :=
    (if 1 < mcd.width then [119, 61] ++ nat_digits mcd.width ++ [58] else []) ++
      (if 1 < mcd.scale then [115, 61] ++ nat_digits mcd.scale ++ [58] else []) ++
      (if mcd.subscale ≠ 0 then [83, 61] ++ nat_digits mcd.subscale ++ [58] else [])
  let params := if params.getLast? = some 58 then params.dropLast else params
  [27, 93] ++ text_size_code_digits ++ [59] ++ params ++ [59]

/-- text_in_cell_ansi (line.c lines 79-93): the code points this cell appends
to the output (the count the C returns as `n` is their length) and whether a
multi-cell OSC head was written. The C also stores `'\a'` at the position one
past the emitted length without counting it, so the BEL never becomes part of
the output; the model omits that dead store. -/
def text_in_cell_ansi (c : CPUCell) (tc : TextCache) : List Nat × Bool :=
  if c.ch_is_idx then
    if ¬c.is_multicell then (tc_chars_at tc c.ch_or_idx, false)
    else if c.x ≠ 0 ∨ c.y ≠ 0 then ([], false)
    else (write_multicell_ansi_osc (cell_multicell_data c tc) ++ tc_chars_at tc c.ch_or_idx, true)
  else ([c.ch_or_idx], false)

/-- The output state of ANSI serialization: the buffer, the
`escape_code_written` result flag, the active hyperlink id carried by the
ANSIBuf, and ghost flags recording which kinds of escape sequence the call
actually wrote (instrumentation only — they influence nothing). -/
structure AnsiOut where
  buf : List Nat
  escape_code_written : Bool
  active_hyperlink_id : Nat
  wrote_sgr : Bool
  wrote_hyperlink : Bool
  wrote_mark : Bool
  wrote_mc_osc : Bool
deriving DecidableEq, Repr

/-- The bytes write_hyperlink (line.c lines 370-391) appends: an OSC 8 open or
close. The registry key has the form `[id]:<uri>` (spec section 6.1); a key
without a colon would make the C walk past the string (undefined), so the model
follows the spec's key format and treats a colon-free key as all id, no uri. -/
def hyperlink_osc_bytes (pool : Nat → Option (List Nat)) (hid : Nat) : List Nat :=
  let key := if hid ≠ 0 then pool hid else none
  match key with
  | none => [27, 93, 56, 59, 59, 27, 92]
  | some k =>
    let idpart := k.takeWhile (fun ch => ch != 58)
    let uripart := (k.dropWhile (fun ch => ch != 58)).drop 1
    [27, 93, 56, 59] ++ (if idpart ≠ [] then [105, 100, 61] ++ idpart else []) ++ [59] ++
      uripart ++ [27, 92]

/-- The active hyperlink id after write_hyperlink: the requested id when the
registry knows it, else 0 (`if (!key) hid = 0`). -/
def hyperlink_new_active (pool : Nat → Option (List Nat)) (hid : Nat) : Nat :=
  if hid ≠ 0 ∧ (pool hid).isSome then hid else 0

/-- WRITE_HYPERLINK of line_as_ansi: sets the escape flag and appends the
OSC 8 sequence, updating the active hyperlink id. -/
def write_hyperlink (pool : Nat → Option (List Nat)) (hid : Nat) (st : AnsiOut) : AnsiOut :=
  { st with
    buf := st.buf ++ hyperlink_osc_bytes pool hid
    active_hyperlink_id := hyperlink_new_active pool hid
    escape_code_written := true
    wrote_hyperlink := true }

/-- WRITE_SGR of line_as_ansi: sets the escape flag and appends
`ESC [ <codes> m` (write_sgr, line.c lines 361-368; its 122-character bound is
never reached by `cell_as_sgr` output for 32-bit colour fields). -/
def write_sgr_st (s : List Char) (st : AnsiOut) : AnsiOut :=
  { st with
    buf := st.buf ++ [27, 91] ++ s.map Char.toNat ++ [109]
    escape_code_written := true
    wrote_sgr := true }

/-- WRITE_MARK of line_as_ansi: sets the escape flag and appends
`ESC ] 133 ; <mark> ESC \` (write_mark, line.c lines 393-401). -/
def write_mark_st (s : List Nat) (st : AnsiOut) : AnsiOut :=
  { st with
    buf := st.buf ++ [27, 93, 49, 51, 51, 59] ++ s ++ [27, 92]
    escape_code_written := true
    wrote_mark := true }

/-- The hyperlink step at the top of the line_as_ansi cell loop (line.c lines
439-444): when the buffer tracks hyperlinks and the cell's id differs from the
active one, write an OSC 8. -/
def ansi_step_hyperlink (l : Line) (has_pool : Bool) (pool : Nat → Option (List Nat))
    (pos : Nat) (st : AnsiOut) : AnsiOut :=
  if has_pool ∧ (cpuAt l pos).hyperlink_id ≠ st.active_hyperlink_id then
    write_hyperlink pool (cpuAt l pos).hyperlink_id st
  else st

/-- The SGR step of the line_as_ansi cell loop (line.c lines 445-449): when any
SGR-relevant field differs from the previous cell, emit the nonempty delta. -/
def ansi_step_sgr (cell prev : GPUCell) (st : AnsiOut) : AnsiOut :=
  if sgr_changed cell prev then
    if cell_as_sgr cell prev = [] then st else write_sgr_st (cell_as_sgr cell prev) st
  else st

/-- The text emission and tab handling of the line_as_ansi cell loop (line.c
lines 451-465): returns the code points kept in the buffer for this cell, the
multi-cell-OSC ghost flag, and the cell index after consuming the tab's space
cells. For an empty emission (`n == 0`, a continuation cell) the C inspects a
byte one past the buffer length; whatever it finds, neither the replacement
store nor the tab branch can change the output (the skip count stays 0), so
the model makes that case a no-op. -/
def ansi_text_step (l : Line) (limit pos : Nat) : List Nat × Bool × Nat :=
  let r := text_in_cell_ansi (cpuAt l pos) l.text_cache
  let s := r.1
  if s = [] then ([], r.2, pos)
  else
    let s := if s.headD 0 = 0 then 32 :: s.tail else s
    if s.headD 0 = 9 then
      let k := if 1 < s.length then s.getD 1 0 else 0
      let s := if 1 < s.length then s.take 1 else s
      (s, r.2, skipSpaces l limit pos k)
    else (s, r.2, pos)

/-- One iteration of the line_as_ansi cell loop: hyperlink step, SGR step, text
emission; returns the new output state, the next loop position minus one, and
the new `prev_cell` (the GPU cell at the iteration's starting position). -/
def ansi_step (l : Line) (has_pool : Bool) (pool : Nat → Option (List Nat))
    (limit pos : Nat) (st : AnsiOut) (prev : GPUCell) : AnsiOut × Nat × GPUCell :=
  let st1 := ansi_step_hyperlink l has_pool pool pos st
  let cell := gpuAt l pos
  let st2 := ansi_step_sgr cell prev st1
  let r := ansi_text_step l limit pos
  ({ st2 with buf := st2.buf ++ r.1, wrote_mc_osc := st2.wrote_mc_osc || r.2.1 }, r.2.2, cell)

/-- The cell loop of line_as_ansi (line.c lines 438-467), fuel-indexed; the
position strictly increases every iteration, so fuel `limit` always suffices. -/
def ansi_go (l : Line) (has_pool : Bool) (pool : Nat → Option (List Nat)) (limit : Nat) :
    Nat → Nat → AnsiOut → GPUCell → AnsiOut × GPUCell
  | 0, _, st, prev => (st, prev)
  | fuel + 1, pos, st, prev =>
    if pos < limit then
      let s := ansi_step l has_pool pool limit pos st prev
      ansi_go l has_pool pool limit fuel (s.2.1 + 1) s.1 s.2.2
    else (st, prev)

/-- The part of line_as_ansi before the cell loop: reset the buffer, write the
optional prefix character (WRITE_CH sets no escape flag), then the OSC 133
prompt marker selected by the line's prompt kind (line.c lines 410-427). -/
def ansi_preamble (l : Line) (active0 prefix_char : Nat) : AnsiOut :=
  let st : AnsiOut :=
    { buf := [], escape_code_written := false, active_hyperlink_id := active0,
      wrote_sgr := false, wrote_hyperlink := false, wrote_mark := false, wrote_mc_osc := false }
  let st := if prefix_char ≠ 0 then { st with buf := st.buf ++ [prefix_char] } else st
  match l.prompt_kind with
  | .unknown => st
  | .promptStart => write_mark_st [65] st
  | .secondaryPrompt => write_mark_st [65, 59, 107, 61, 115] st
  | .outputStart => write_mark_st [67] st

/-- line_as_ansi (line.c lines 403-476). `has_pool`/`pool` model the ANSIBuf's
optional hyperlink registry, `active0` its running active hyperlink id, and
`prev0` the nullable `prev_cell`; the function resets the buffer, optionally
writes the prefix character and the OSC 133 prompt marker, then runs the cell
loop over `[start_at, min(stop_before, xlimit_for_line))`. It returns the
output state (whose `escape_code_written` is the C return value) and the final
`prev_cell` (unchanged on the early return, as in the C). -/
def line_as_ansi (l : Line) (has_pool : Bool) (pool : Nat → Option (List Nat))
    (active0 : Nat) (prev0 : Option GPUCell) (start_at stop_before prefix_char : Nat) :
    AnsiOut × Option GPUCell :=
  let st := ansi_preamble l active0 prefix_char
  let limit := min stop_before (xlimit_for_line l)
  if limit ≤ start_at then (st, prev0)
  else
    let r := ansi_go l has_pool pool limit limit start_at st (prev0.getD blank_gpu_cell)
    (r.1, some r.2)

/-- An empty hyperlink registry, for the concrete examples. -/
def emptyPool : Nat → Option (List Nat) := fun _ => none

/-! ## URL detection (line.c lines 105-248). The Unicode classifier
`is_url_char` and the configured prefix table are external (spec section 6.2),
so every function below is parameterized over them. -/

/-- MIN_URL_LEN (line.c line 181). -/
def MIN_URL_LEN : Nat := 5

/-- is_hostname_char (line.c lines 107-110): `[`, `]` or a URL character. -/
def is_hostname_char (iuc : Nat → Bool) (ch : Nat) : Bool :=
  ch == 91 || ch == 93 || iuc ch

/-- is_hostname_lc (line.c lines 112-116): every code point of the cell text is
a hostname character. -/
def is_hostname_lc (iuc : Nat → Bool) (lc : List Nat) : Bool :=
  lc.all (is_hostname_char iuc)

/-- is_url_lc (line.c lines 118-122). -/
def is_url_lc (iuc : Nat → Bool) (lc : List Nat) : Bool := lc.all iuc

/-- The three states of the backward `://` recognizer in find_colon_slash. -/
inductive UrlScanState where
  | any
  | firstSlash
  | secondSlash
deriving DecidableEq, Repr

/-- The state transition of the find_colon_slash switch for a non-accepting
cell: advance on `/`, fall back to ANY otherwise. -/
def url_next_state (slash : Bool) : UrlScanState → UrlScanState
  | .any => if slash then .firstSlash else .any
  | .firstSlash => if slash then .secondSlash else .any
  | .secondSlash => if slash then .secondSlash else .any

/-- The `pos == x` bootstrap of find_colon_slash (line.c lines 137-143): when
the scan sits exactly on `x`, pre-seat the recognizer state if `x` is a `:`
followed by `//`, or a `/` followed by `/`. -/
def fcs_bootstrap (l : Line) (x pos : Nat) (state : UrlScanState) : UrlScanState :=
  if pos = x then
    if cell_is_char (cpuAt l pos) 58 then
      if pos + 2 < l.xnum ∧ cell_is_char (cpuAt l (pos + 1)) 47 ∧
          cell_is_char (cpuAt l (pos + 2)) 47 then UrlScanState.secondSlash
      else state
    else if cell_is_char (cpuAt l pos) 47 then
      if pos + 1 < l.xnum ∧ cell_is_char (cpuAt l (pos + 1)) 47 then UrlScanState.firstSlash
      else state
    else state
  else state

/-- The do-while of find_colon_slash (line.c lines 133-157), fuel-indexed
(the position strictly decreases, so fuel `pos + 1` suffices). Returns the
position of the `:` of a `://` at or before the scan start, or 0. -/
def fcs_go (l : Line) (iuc : Nat → Bool) (x limit : Nat) :
    Nat → UrlScanState → Nat → Nat
  | 0, _, _ => 0
  | fuel + 1, state, pos =>
    let c := cpuAt l pos
    if ¬is_hostname_lc iuc (text_in_cell c l.text_cache) then 0
    else
      let state := fcs_bootstrap l x pos state
      if state = UrlScanState.secondSlash ∧ cell_is_char c 58 then pos
      else if limit ≤ pos - 1 then
        fcs_go l iuc x limit fuel (url_next_state (cell_is_char c 47) state) (pos - 1)
      else 0

/-- find_colon_slash (line.c lines 125-159): find `://` at or before `x`,
scanning no further back than `limit` (raised to at least 2). -/
def find_colon_slash (l : Line) (iuc : Nat → Bool) (x limit0 : Nat) : Nat :=
  let pos := min x (l.xnum - 1)
  let limit := max 2 limit0
  if pos < limit then 0
  else fcs_go l iuc x limit (pos + 1) .any pos

/-- The cell-by-cell comparison loop of prefix_matches (line.c lines 164-168):
the cells starting at `p` spell the prefix, every compared cell in bounds. -/
def pm_go (l : Line) : Nat → List Nat → Bool
  | _, [] => true
  | p, ch :: rest =>
    if p < l.xnum then
      if cell_is_char (cpuAt l p) ch then pm_go l (p + 1) rest else false
    else false

/-- prefix_matches (line.c lines 161-169): the cells `[at - len, at)` spell the
given prefix. -/
def prefix_matches (l : Line) (at_ : Nat) (pfx : List Nat) : Bool :=
  if at_ < pfx.length then false else pm_go l (at_ - pfx.length) pfx

/-- has_url_prefix_at (line.c lines 171-179): try each configured prefix in
order; on a match at `at_` return `at_ - len`. -/
def has_url_prefix_at (l : Line) (prefixes : List (List Nat))
    (at_ min_prefix_len : Nat) : Option Nat :=
  match prefixes with
  | [] => none
  | p :: rest =>
    if at_ < p.length ∨ p.length < min_prefix_len then
      has_url_prefix_at l rest at_ min_prefix_len
    else if prefix_matches l at_ p then some (at_ - p.length)
    else has_url_prefix_at l rest at_ min_prefix_len

/-- The scan loop of has_url_beyond_colon_slash (line.c lines 183-198),
fuel-indexed (`MIN_URL_LEN + 3` iterations at most). -/
def hubcs_go (l : Line) (iuc : Nat → Bool) (stop : Nat) :
    Nat → Nat → Nat → Bool
  | 0, _, _ => true
  | fuel + 1, i, slashes =>
    if i < stop then
      let lc := text_in_cell (cpuAt l i) l.text_cache
      if slashes < 3 then
        if ¬is_hostname_lc iuc lc then false
        else
          hubcs_go l iuc stop fuel (i + 1)
            (if lc.length = 1 ∧ lc.headD 0 = 47 then slashes + 1 else slashes)
      else if is_url_lc iuc lc then hubcs_go l iuc stop fuel (i + 1) slashes
      else false
    else true

/-- has_url_beyond_colon_slash (line.c lines 183-198): after the candidate `:`
the next cells begin with up to three `/` while hostname-valid, then stay
URL-valid, over a window of `MIN_URL_LEN + 3` cells clipped to the line. -/
def has_url_beyond_colon_slash (l : Line) (iuc : Nat → Bool) (x : Nat) : Bool :=
  hubcs_go l iuc (min (x + MIN_URL_LEN + 3) l.xnum) (MIN_URL_LEN + 3) x 0

/-- The forward-first attempt of line_url_start_at (line.c lines 208-211):
look for `://` ahead of `x` (scanning back no further than `x - 2`), check the
URL body beyond it and match a configured prefix ending there. -/
def url_first_attempt (l : Line) (iuc : Nat → Bool) (prefixes : List (List Nat))
    (max_prefix_len x : Nat) : Option Nat :=
  let ds1 := find_colon_slash l iuc (x + max_prefix_len + 3) (if x < 2 then 0 else x - 2)
  if ds1 ≠ 0 ∧ has_url_beyond_colon_slash l iuc ds1 then
    has_url_prefix_at l prefixes ds1 (if x < ds1 then ds1 - x else 0)
  else none

/-- The second attempt of line_url_start_at (line.c lines 212-215): repeat the
`://` search backward from `x` itself. -/
def url_second_attempt (l : Line) (iuc : Nat → Bool) (prefixes : List (List Nat))
    (x : Nat) : Nat :=
  let ds2 := find_colon_slash l iuc x 0
  if ds2 = 0 ∨ l.xnum < ds2 + MIN_URL_LEN + 3 ∨ ¬has_url_beyond_colon_slash l iuc ds2 then
    l.xnum
  else
    match has_url_prefix_at l prefixes ds2 0 with
    | some t => t
    | none => l.xnum

/-- line_url_start_at (line.c lines 200-216): the starting cell of a URL
(`known-prefix://url-chars`) containing `x`, or xnum when none is found. -/
def line_url_start_at (l : Line) (iuc : Nat → Bool) (prefixes : List (List Nat))
    (max_prefix_len x : Nat) : Nat :=
  if x ≥ l.xnum ∨ l.xnum ≤ MIN_URL_LEN + 3 then l.xnum
  else
    match url_first_attempt l iuc prefixes max_prefix_len x with
    | some t => t
    | none => url_second_attempt l iuc prefixes x

/-! ## Per-cell mutators and queries -/

/-- The error kinds the Python-facing methods raise. -/
inductive LineError where
  | indexError
  | valueError
deriving DecidableEq, Repr

/-- The result of width (line.c lines 511-521). -/
inductive WidthResult where
  | valueError
  | nullWithoutError
  | value (n : Nat)
deriving DecidableEq, Repr

/-- width (line.c lines 511-521). Out-of-bounds columns raise ValueError; for
a textless cell the C executes `return 0;`, which from a PyObject*-returning
function is a NULL error return, not the integer 0 — recorded as
`nullWithoutError`. Otherwise 1, or for multicell cells 0 (continuation) /
the MultiCellData width (anchor). -/
def width (l : Line) (x : Nat) : WidthResult :=
  if x ≥ l.xnum then .valueError
  else
    let c := cpuAt l x
    if ¬cell_has_text c then .nullWithoutError
    else
      .value
        (if c.is_multicell then
          if c.x ≠ 0 ∨ c.y ≠ 0 then 0 else (cell_multicell_data c l.text_cache).width
        else 1)

/-- Modelled from the spec: the search step of the text cache's interning —
the index of the first entry holding exactly these code points, if any
(spec sections 2.1 and 9: cache entries are immutable, interning reuses or
appends). -/
def tc_find (entries : TextCache) (cs : List Nat) : Option Nat :=
  match entries with
  | [] => none
  | e :: rest => if e.chars = cs then some 0 else (tc_find rest cs).map (fun n => n + 1)

/-- Modelled from the spec: tc_get_or_insert_chars — intern a code-point
sequence, returning its stable index and the possibly-extended cache. -/
def tc_get_or_insert (tc : TextCache) (cs : List Nat) : Nat × TextCache :=
  match tc_find tc cs with
  | some i => (i, tc)
  | none => (tc.length, tc ++ [⟨cs, default⟩])

/-- add_combining_char (line.c lines 523-542): out-of-range columns raise
ValueError; any multicell cell (anchor or continuation) raises IndexError;
otherwise the cell's text with the new code point appended is interned and the
cell now carries the new index. -/
def add_combining_char (l : Line) (x ch : Nat) : Except LineError Line :=
  if x ≥ l.xnum then .error .valueError
  else
    let cell := cpuAt l x
    if cell.is_multicell then .error .indexError
    else
      let lc := text_in_cell cell l.text_cache
      let r := tc_get_or_insert l.text_cache (lc ++ [ch])
      .ok
        { l with
          text_cache := r.2
          cpu_cells := l.cpu_cells.set x { cell with ch_or_idx := r.1, ch_is_idx := true } }

/-- Whether an Except result is a success. -/
def isOkE (e : Except LineError Line) : Bool :=
  match e with
  | .ok _ => true
  | .error _ => false

/-- The error carried by an Except result, if any. -/
def errOfE (e : Except LineError Line) : Option LineError :=
  match e with
  | .ok _ => none
  | .error er => some er

/-- Modelled from the spec: the external Cursor type's fields used by this
module — position, colours, and the attribute flags (spec sections 4.4, 2). -/
structure Cursor where
  x : Nat
  y : Nat
  fg : Nat
  bg : Nat
  decoration_fg : Nat
  bold : Bool
  dim : Bool
  italic : Bool
  reverse : Bool
  strike : Bool
  decoration : Nat
deriving DecidableEq, Repr

/-- Modelled from the spec: cursor_to_attrs packs the cursor's formatting flags
into a cell attribute word; the cursor has no mark, so the mark bits are 0. -/
def cursor_to_attrs (cur : Cursor) : CellAttrs :=
  { bold := cur.bold, dim := cur.dim, italic := cur.italic, reverse := cur.reverse,
    strike := cur.strike, decoration := cur.decoration, mark := 0 }

/-- Modelled from the spec: cursor_as_gpu_cell builds a GPU cell from the
cursor's colours (masked to 32 bits, COL_MASK) and attributes, with zero sprite
coordinates. -/
def cursor_as_gpu_cell (cur : Cursor) : GPUCell :=
  { fg := cur.fg % 2 ^ 32, bg := cur.bg % 2 ^ 32, decoration_fg := cur.decoration_fg % 2 ^ 32,
    attrs := cursor_to_attrs cur, sprite_x := 0, sprite_y := 0, sprite_z := 0 }

/-- Map a function of the index over a list, indices starting at `start`; the
shape of a C loop that rewrites each element of an array range in place. -/
def mapFromIdx (f : Nat → α → α) : Nat → List α → List α
  | _, [] => []
  | start, a :: rest => f start a :: mapFromIdx f (start + 1) rest

/-- line_apply_cursor (line.c lines 619-636). With `clear_char` the CPU range
is zeroed and the cursor's GPU cell copied across (the clipped count of the
memset); otherwise each GPU cell in `[at, min(at + num, xnum))` becomes the
cursor's GPU cell with the cell's own mark bits and sprite coordinates
preserved, and the CPU cells are untouched. -/
def line_apply_cursor (l : Line) (cur : Cursor) (at_ num : Nat) (clear_char : Bool) : Line :=
  let gc := cursor_as_gpu_cell cur
  if clear_char then
    let num := if l.xnum < at_ + num then (if at_ < l.xnum then l.xnum - at_ else 0) else num
    { l with
      cpu_cells := mapFromIdx
        (fun i c => if at_ ≤ i ∧ i < at_ + num then default else c) 0 l.cpu_cells
      gpu_cells := mapFromIdx
        (fun i g => if at_ ≤ i ∧ i < at_ + num then gc else g) 0 l.gpu_cells }
  else
    { l with
      gpu_cells := mapFromIdx
        (fun i g =>
          if at_ ≤ i ∧ i < l.xnum ∧ i < at_ + num then
            { gc with
              attrs := { gc.attrs with mark := g.attrs.mark }
              sprite_x := g.sprite_x, sprite_y := g.sprite_y, sprite_z := g.sprite_z }
          else g)
        0 l.gpu_cells }

/-- The write loop of set_text (line.c lines 570-577), fuel-indexed (`offset`
strictly increases, so fuel `limit - offset + 1` suffices): each written cell
becomes a fresh single-code-point CPU cell and takes the cursor's attributes
and colours, keeping its sprite coordinates. -/
def set_text_go (src : List Nat) (limit : Nat) (attrs : CellAttrs) (fg bg dfg : Nat)
    (xnum : Nat) : Nat → Nat → Nat → List CPUCell × List GPUCell → List CPUCell × List GPUCell
  | 0, _, _, cells => cells
  | fuel + 1, i, offset, cells =>
    if offset < limit ∧ i < xnum then
      set_text_go src limit attrs fg bg dfg xnum fuel (i + 1) (offset + 1)
        (cells.1.set i { (default : CPUCell) with ch_or_idx := src.getD offset 0 },
          cells.2.set i
            { cells.2.getD i default with
              attrs := attrs
              fg := fg
              bg := bg
              decoration_fg := dfg })
    else cells

/-- set_text (line.c lines 545-580): blit `sz` code points of `src` starting at
`offset` onto cells from `cursor.x`. The bounds check
`PyUnicode_GET_LENGTH(src) < offset + sz` raises ValueError before any cell is
touched; the C then cannot fail inside the loop. Returns the error (if any)
paired with the resulting line (unchanged on error). -/
def set_text (l : Line) (src : List Nat) (offset sz : Nat) (cur : Cursor) :
    Option LineError × Line :=
  let limit := offset + sz
  if src.length < limit then (some .valueError, l)
  else
    let cells := set_text_go src limit (cursor_to_attrs cur) (cur.fg % 2 ^ 32)
      (cur.bg % 2 ^ 32) (cur.decoration_fg % 2 ^ 32) l.xnum (sz + 1) cur.x offset
      (l.cpu_cells, l.gpu_cells)
    (none, { l with cpu_cells := cells.1, gpu_cells := cells.2 })

/-- Example line for the tab claims: xnum 4, cell 0 an interned tab with stored
skip count 3 (cache entry `[9, 3]`), cells 1..3 plain spaces. -/
def tabExampleLine : Line :=
  { xnum := 4
    cpu_cells :=
      [ { ch_or_idx := 0, ch_is_idx := true, is_multicell := false, x := 0, y := 0,
          hyperlink_id := 0, next_char_was_wrapped := false }
      , { ch_or_idx := 32, ch_is_idx := false, is_multicell := false, x := 0, y := 0,
          hyperlink_id := 0, next_char_was_wrapped := false }
      , { ch_or_idx := 32, ch_is_idx := false, is_multicell := false, x := 0, y := 0,
          hyperlink_id := 0, next_char_was_wrapped := false }
      , { ch_or_idx := 32, ch_is_idx := false, is_multicell := false, x := 0, y := 0,
          hyperlink_id := 0, next_char_was_wrapped := false } ]
    gpu_cells := [default, default, default, default]
    prompt_kind := .unknown
    text_cache := [⟨[9, 3], default⟩] }

/-- Example line with a width-2 multi-cell glyph: cell 0 the anchor, cell 1 the
continuation, both referring to cache entry 0 (text `w`, MultiCellData width 2),
default styling, no hyperlinks, no prompt mark. -/
def mcLine2 : Line :=
  { xnum := 2
    cpu_cells :=
      [ { ch_or_idx := 0, ch_is_idx := true, is_multicell := true, x := 0, y := 0,
          hyperlink_id := 0, next_char_was_wrapped := false }
      , { ch_or_idx := 0, ch_is_idx := true, is_multicell := true, x := 1, y := 0,
          hyperlink_id := 0, next_char_was_wrapped := false } ]
    gpu_cells := [default, default]
    prompt_kind := .unknown
    text_cache := [⟨[119], ⟨2, 1, 0⟩⟩] }

/-- Example line with one plain letter cell. -/
def charLine : Line :=
  { xnum := 1
    cpu_cells := [{ (default : CPUCell) with ch_or_idx := 97 }]
    gpu_cells := [default]
    prompt_kind := .unknown
    text_cache := [] }

/-- Example line with one blank cell (`ch_or_idx = 0`, not an index). -/
def blankCellLine : Line :=
  { xnum := 1
    cpu_cells := [default]
    gpu_cells := [default]
    prompt_kind := .unknown
    text_cache := [] }

/-- Example GPU cell differing from the blank cell only in the decoration
(underline style) bits, set to 4. -/
def dec4Cell : GPUCell :=
  { blank_gpu_cell with attrs := { blank_gpu_cell.attrs with decoration := 4 } }

/-- Example cursor with distinctive colours and attributes. -/
def exCursor : Cursor :=
  { x := 0, y := 0, fg := 7 * 256 + 1, bg := 2, decoration_fg := 0, bold := true,
    dim := false, italic := true, reverse := false, strike := false, decoration := 1 }

/-- Example line with two styled cells carrying marks and sprite coordinates,
for the apply_cursor claim. -/
def styledLine2 : Line :=
  { xnum := 2
    cpu_cells := [{ (default : CPUCell) with ch_or_idx := 104 },
      { (default : CPUCell) with ch_or_idx := 105 }]
    gpu_cells :=
      [ { fg := 3, bg := 4, decoration_fg := 5,
          attrs := { bold := false, dim := true, italic := false, reverse := true,
                     strike := false, decoration := 2, mark := 3 },
          sprite_x := 11, sprite_y := 12, sprite_z := 13 }
      , { fg := 6, bg := 7, decoration_fg := 8,
          attrs := { bold := true, dim := false, italic := false, reverse := false,
                     strike := true, decoration := 0, mark := 1 },
          sprite_x := 21, sprite_y := 22, sprite_z := 23 } ]
    prompt_kind := .unknown
    text_cache := [] }

/-- The relation between line_as_ansi's result flag and the ghost flags: the
flag tracks exactly the SGR, hyperlink and prompt-marker writes. -/
def flag_matches (st : AnsiOut) : Prop :=
  st.escape_code_written = (st.wrote_sgr || st.wrote_hyperlink || st.wrote_mark)

/-! ## Helper lemmas -/

theorem skipSpaces_ge (l : Line) (limit : Nat) :
    ∀ (k i : Nat), i ≤ skipSpaces l limit i k := by
  intro k
  induction k with
  | zero => intro i; exact Nat.le_refl i
  | succ n ih =>
    intro i
    simp only [skipSpaces]
    split
    · exact Nat.le_trans (Nat.le_succ i) (ih (i + 1))
    · exact Nat.le_refl i

theorem uir_go_at_limit (l : Line) (limit : Nat) (cc sz : Bool) :
    ∀ (fuel i : Nat), limit ≤ i → uir_go l limit cc sz fuel i = [] := by
  intro fuel i h
  cases fuel with
  | zero => rfl
  | succ n => simp [uir_go, Nat.not_lt.2 h]

/-- Fuel adequacy for the unicode_in_range loop: any fuel at least `limit - i`
computes the same result, so the `limit` fuel used by `unicode_in_range` models
the unbounded C loop exactly. -/
theorem uir_go_fuel (l : Line) (limit : Nat) (cc sz : Bool) :
    ∀ (f1 f2 i : Nat), limit ≤ i + f1 → limit ≤ i + f2 →
      uir_go l limit cc sz f1 i = uir_go l limit cc sz f2 i := by
  intro f1
  induction f1 with
  | zero =>
    intro f2 i h1 h2
    rw [uir_go_at_limit l limit cc sz 0 i (by omega),
      uir_go_at_limit l limit cc sz f2 i (by omega)]
  | succ n ih =>
    intro f2 i h1 h2
    by_cases hi : i < limit
    · cases f2 with
      | zero => omega
      | succ m =>
        have htab : ∀ K : Nat,
            9 :: uir_go l limit cc sz n (skipSpaces l limit i K + 1) =
              9 :: uir_go l limit cc sz m (skipSpaces l limit i K + 1) := by
          intro K
          have hs := skipSpaces_ge l limit K i
          rw [ih m _ (by omega) (by omega)]
        simp only [uir_go, if_pos hi]
        split
        · exact ih m (i + 1) (by omega) (by omega)
        · split
          · exact ih m (i + 1) (by omega) (by omega)
          · split
            · split
              · exact htab _
              · rw [ih m (i + 1) (by omega) (by omega)]
            · split
              · exact htab _
              · rw [ih m (i + 1) (by omega) (by omega)]
    · rw [uir_go_at_limit l limit cc sz (n + 1) i (by omega),
        uir_go_at_limit l limit cc sz f2 i (by omega)]

theorem ansi_text_step_pos_ge (l : Line) (limit pos : Nat) :
    pos ≤ (ansi_text_step l limit pos).2.2 := by
  simp only [ansi_text_step]
  split
  · exact Nat.le_refl pos
  · split
    · split
      · exact skipSpaces_ge l limit _ pos
      · exact Nat.le_refl pos
    · split
      · exact skipSpaces_ge l limit _ pos
      · exact Nat.le_refl pos

theorem ansi_go_at_limit (l : Line) (hp : Bool) (pool : Nat → Option (List Nat))
    (limit : Nat) :
    ∀ (fuel pos : Nat) (st : AnsiOut) (prev : GPUCell), limit ≤ pos →
      ansi_go l hp pool limit fuel pos st prev = (st, prev) := by
  intro fuel pos st prev h
  cases fuel with
  | zero => rfl
  | succ n => simp [ansi_go, Nat.not_lt.2 h]

/-- Fuel adequacy for the line_as_ansi cell loop: any fuel at least
`limit - pos` computes the same result, so the `limit` fuel used by
`line_as_ansi` models the unbounded C loop exactly. -/
theorem ansi_go_fuel (l : Line) (hp : Bool) (pool : Nat → Option (List Nat)) (limit : Nat) :
    ∀ (f1 f2 pos : Nat) (st : AnsiOut) (prev : GPUCell),
      limit ≤ pos + f1 → limit ≤ pos + f2 →
      ansi_go l hp pool limit f1 pos st prev = ansi_go l hp pool limit f2 pos st prev := by
  intro f1
  induction f1 with
  | zero =>
    intro f2 pos st prev h1 h2
    rw [ansi_go_at_limit l hp pool limit 0 pos st prev (by omega),
      ansi_go_at_limit l hp pool limit f2 pos st prev (by omega)]
  | succ n ih =>
    intro f2 pos st prev h1 h2
    by_cases hp2 : pos < limit
    · cases f2 with
      | zero => omega
      | succ m =>
        have hs := ansi_text_step_pos_ge l limit pos
        simp only [ansi_go, if_pos hp2]
        exact ih m _ _ _ (by simp only [ansi_step]; omega) (by simp only [ansi_step]; omega)
    · rw [ansi_go_at_limit l hp pool limit (n + 1) pos st prev (by omega),
        ansi_go_at_limit l hp pool limit f2 pos st prev (by omega)]

theorem getD_set_self {α : Type _} (d a : α) :
    ∀ (xs : List α) (i : Nat), i < xs.length → (xs.set i a).getD i d = a := by
  intro xs
  induction xs with
  | nil => intro i h; simp at h
  | cons b rest ih =>
    intro i h
    cases i with
    | zero => simp
    | succ n => simpa using ih n (by simpa using h)

theorem getD_append_singleton {α : Type _} (d a : α) :
    ∀ (xs : List α), (xs ++ [a]).getD xs.length d = a := by
  intro xs
  induction xs with
  | nil => rfl
  | cons b rest ih => simp only [List.cons_append, List.length_cons, List.getD_cons_succ, ih]

theorem getD_of_length_le {α : Type _} (d : α) :
    ∀ (xs : List α) (i : Nat), xs.length ≤ i → xs.getD i d = d := by
  intro xs
  induction xs with
  | nil => intro i h; cases i <;> rfl
  | cons a rest ih =>
    intro i h
    cases i with
    | zero => simp at h
    | succ n => simpa using ih n (by simpa using h)

theorem mapFromIdx_getD {α : Type _} (f : Nat → α → α) (d : α) :
    ∀ (xs : List α) (start i : Nat),
      (mapFromIdx f start xs).getD i d =
        if i < xs.length then f (start + i) (xs.getD i d) else d := by
  intro xs
  induction xs with
  | nil => intro start i; simp [mapFromIdx]
  | cons a rest ih =>
    intro start i
    cases i with
    | zero => simp [mapFromIdx]
    | succ n =>
      simp only [mapFromIdx, List.getD_cons_succ, List.length_cons]
      rw [ih]
      have h1 : start + 1 + n = start + (n + 1) := by omega
      rw [h1]
      by_cases hn : n < rest.length <;> simp [hn, Nat.succ_lt_succ_iff]

theorem tc_find_chars (cs : List Nat) :
    ∀ (entries : TextCache) (i : Nat), tc_find entries cs = some i →
      (entries.getD i default).chars = cs := by
  intro entries
  induction entries with
  | nil => intro i h; simp [tc_find] at h
  | cons e rest ih =>
    intro i h
    by_cases hc : e.chars = cs
    · simp only [tc_find, if_pos hc, Option.some.injEq] at h
      subst h
      simpa using hc
    · simp only [tc_find, if_neg hc, Option.map_eq_some'] at h
      obtain ⟨j, hj, rfl⟩ := h
      simpa using ih j hj

theorem tc_get_or_insert_chars (tc : TextCache) (cs : List Nat) :
    tc_chars_at (tc_get_or_insert tc cs).2 (tc_get_or_insert tc cs).1 = cs := by
  unfold tc_get_or_insert
  cases h : tc_find tc cs with
  | some i => simpa [tc_chars_at] using tc_find_chars cs tc i h
  | none =>
    simp only [tc_chars_at]
    rw [getD_append_singleton]

theorem fcs_go_le (l : Line) (iuc : Nat → Bool) (x limit : Nat) :
    ∀ (fuel : Nat) (state : UrlScanState) (pos : Nat),
      fcs_go l iuc x limit fuel state pos ≤ pos := by
  intro fuel
  induction fuel with
  | zero => intro state pos; simp [fcs_go]
  | succ n ih =>
    intro state pos
    simp only [fcs_go]
    generalize fcs_bootstrap l x pos state = state2
    split
    · exact Nat.zero_le pos
    · split
      · exact Nat.le_refl pos
      · split
        · exact Nat.le_trans (ih _ (pos - 1)) (Nat.sub_le pos 1)
        · exact Nat.zero_le pos

theorem find_colon_slash_le (l : Line) (iuc : Nat → Bool) (x limit0 : Nat) :
    find_colon_slash l iuc x limit0 ≤ min x (l.xnum - 1) := by
  simp only [find_colon_slash]
  split
  · exact Nat.zero_le _
  · exact fcs_go_le l iuc x (max 2 limit0) _ .any (min x (l.xnum - 1))

theorem has_url_prefix_at_le (l : Line) :
    ∀ (prefixes : List (List Nat)) (at_ mpl t : Nat),
      has_url_prefix_at l prefixes at_ mpl = some t → t ≤ at_ := by
  intro prefixes
  induction prefixes with
  | nil => intro at_ mpl t h; simp [has_url_prefix_at] at h
  | cons p rest ih =>
    intro at_ mpl t h
    simp only [has_url_prefix_at] at h
    split at h
    · exact ih at_ mpl t h
    · split at h
      · simp only [Option.some.injEq] at h
        omega
      · exact ih at_ mpl t h

theorem flag_matches_write_hyperlink (pool : Nat → Option (List Nat)) (hid : Nat)
    (st : AnsiOut) : flag_matches (write_hyperlink pool hid st) := by
  simp [flag_matches, write_hyperlink]

theorem flag_matches_write_sgr (s : List Char) (st : AnsiOut) :
    flag_matches (write_sgr_st s st) := by
  simp [flag_matches, write_sgr_st]

theorem flag_matches_write_mark (s : List Nat) (st : AnsiOut) :
    flag_matches (write_mark_st s st) := by
  simp [flag_matches, write_mark_st]

theorem flag_matches_step_hyperlink (l : Line) (hp : Bool) (pool : Nat → Option (List Nat))
    (pos : Nat) (st : AnsiOut) (h : flag_matches st) :
    flag_matches (ansi_step_hyperlink l hp pool pos st) := by
  unfold ansi_step_hyperlink
  split
  · exact flag_matches_write_hyperlink pool _ st
  · exact h

theorem flag_matches_step_sgr (cell prev : GPUCell) (st : AnsiOut) (h : flag_matches st) :
    flag_matches (ansi_step_sgr cell prev st) := by
  unfold ansi_step_sgr
  split
  · split
    · exact h
    · exact flag_matches_write_sgr _ st
  · exact h

theorem flag_matches_ansi_step (l : Line) (hp : Bool) (pool : Nat → Option (List Nat))
    (limit pos : Nat) (st : AnsiOut) (prev : GPUCell) (h : flag_matches st) :
    flag_matches (ansi_step l hp pool limit pos st prev).1 := by
  have h2 := flag_matches_step_sgr (gpuAt l pos) prev _
    (flag_matches_step_hyperlink l hp pool pos st h)
  simpa [ansi_step, flag_matches] using h2

theorem flag_matches_ansi_go (l : Line) (hp : Bool) (pool : Nat → Option (List Nat))
    (limit : Nat) :
    ∀ (fuel pos : Nat) (st : AnsiOut) (prev : GPUCell), flag_matches st →
      flag_matches (ansi_go l hp pool limit fuel pos st prev).1 := by
  intro fuel
  induction fuel with
  | zero => intro pos st prev h; simpa [ansi_go] using h
  | succ n ih =>
    intro pos st prev h
    simp only [ansi_go]
    split
    · exact ih _ _ _ (flag_matches_ansi_step l hp pool limit pos st prev h)
    · exact h

theorem flag_matches_preamble (l : Line) (active0 prefix_char : Nat) :
    flag_matches (ansi_preamble l active0 prefix_char) := by
  unfold ansi_preamble
  cases l.prompt_kind
  · split <;> rfl
  · exact flag_matches_write_mark _ _
  · exact flag_matches_write_mark _ _
  · exact flag_matches_write_mark _ _

/-! ## The claims -/

/-- Claim C1 (amended): for every line and every call, the boolean line_as_ansi
returns is true if and only if an SGR run, a hyperlink OSC 8 or a prompt-marker
OSC 133 was written into the output buffer during that call; the multi-cell
glyph OSC prefix is written without raising the flag. -/
theorem C1_escape_flag (l : Line) (hp : Bool) (pool : Nat → Option (List Nat))
    (a0 : Nat) (prev0 : Option GPUCell) (s e pc : Nat) :
    (line_as_ansi l hp pool a0 prev0 s e pc).1.escape_code_written =
      ((line_as_ansi l hp pool a0 prev0 s e pc).1.wrote_sgr ||
        (line_as_ansi l hp pool a0 prev0 s e pc).1.wrote_hyperlink ||
        (line_as_ansi l hp pool a0 prev0 s e pc).1.wrote_mark) := by
  show flag_matches (line_as_ansi l hp pool a0 prev0 s e pc).1
  simp only [line_as_ansi]
  split
  · exact flag_matches_preamble l a0 pc
  · exact flag_matches_ansi_go l hp pool _ _ _ _ _ (flag_matches_preamble l a0 pc)

/-- Claim C1, counterexample to the claim as stated: on a line whose only
content is a width-2 multi-cell glyph with default styling, line_as_ansi writes
the multi-cell OSC prefix into the buffer yet returns false, so the returned
boolean is not equivalent to "some escape sequence (including the multi-cell
OSC prefix) was written". -/
theorem C1_counterexample :
    ¬(((line_as_ansi mcLine2 false emptyPool 0 (some blank_gpu_cell) 0 2 0).1.escape_code_written
          = true) ↔
        ((line_as_ansi mcLine2 false emptyPool 0 (some blank_gpu_cell) 0 2 0).1.wrote_sgr = true ∨
          (line_as_ansi mcLine2 false emptyPool 0 (some blank_gpu_cell) 0 2 0).1.wrote_hyperlink
            = true ∨
          (line_as_ansi mcLine2 false emptyPool 0 (some blank_gpu_cell) 0 2 0).1.wrote_mark
            = true ∨
          (line_as_ansi mcLine2 false emptyPool 0 (some blank_gpu_cell) 0 2 0).1.wrote_mc_osc
            = true)) ∧
      27 ∈ (line_as_ansi mcLine2 false emptyPool 0 (some blank_gpu_cell) 0 2 0).1.buf := by
  decide

/-- Claim C6: the SGR delta of a cell against an identical previous cell is
empty — `cell_as_sgr(c, c)` emits no codes. -/
theorem C6_sgr_self_empty (c : GPUCell) : cell_as_sgr c c = [] := by
  simp [cell_as_sgr]

/-- Claim C5: at the failing input — two GPU cells differing only in the
decoration (underline style) bits, set to 4 — cell_as_sgr returns `4:`, not the
mapped code `4:4`: decoration_as_sgr omits the trailing semicolon for styles 4
and 5, so the encoder's unconditional strip of the final character (meant to
remove a trailing semicolon) eats the last digit of the code. -/
theorem C5_decoration_sgr_bug :
    cell_as_sgr dec4Cell blank_gpu_cell = ['4', ':'] ∧
      cell_as_sgr dec4Cell blank_gpu_cell ≠ ['4', ':', '4'] := by
  decide

/-- Claim C8: at the failing input — a blank in-range cell — width executes
`return 0;`, a NULL return from a PyObject*-returning function (an error
return with no exception set), not the integer 0 the claim describes; the
other three cases of the claim hold: 1 for a normal cell with text, the
MultiCellData width for a multi-cell anchor, 0 for a continuation cell. -/
theorem C8_width_cases :
    width blankCellLine 0 = WidthResult.nullWithoutError ∧
      width charLine 0 = WidthResult.value 1 ∧
      width mcLine2 0 = WidthResult.value 2 ∧
      width mcLine2 1 = WidthResult.value 0 := by
  decide

/-- Claim C2 (amended): when flattening a line range to Unicode, a tab anchor
cell is emitted as the tab character itself (one code point) and up to `k`
following space cells are consumed and not emitted, where `k` is the tab's
stored skip count bounded by the range limit (the `skipSpaces` loop); in
particular, for a line whose cell 0 is a tab with skip count 3 and whose cells
1..3 are spaces, the flattened text is exactly one tab (one code point), not
four spaces. -/
theorem C2_tab_flatten :
    (∀ (l : Line) (limit : Nat) (cc sz : Bool) (fuel i : Nat),
        i < limit →
        is_continuation_cell (cpuAt l i) = false →
        (text_in_cell (cpuAt l i) l.text_cache).headD 0 = 9 →
        uir_go l limit cc sz (fuel + 1) i =
          9 :: uir_go l limit cc sz fuel
            (skipSpaces l limit i
              (if 1 < (text_in_cell (cpuAt l i) l.text_cache).length then
                (text_in_cell (cpuAt l i) l.text_cache).getD 1 0
              else 0) + 1)) ∧
      unicode_in_range tabExampleLine 0 4 true false false = [9] := by
  constructor
  · intro l limit cc sz fuel i hi hcont h9
    have h9b : (text_in_cell (cpuAt l i) l.text_cache).head?.getD 0 = 9 := by
      simpa using h9
    simp [uir_go, hi, hcont, h9b]
  · decide

/-- Claim C2, counterexample to the claim as stated: on the spec's own example
(cell 0 a tab with skip count 3, cells 1..3 spaces) the flattened text is the
single tab code point, not four spaces. -/
theorem C2_counterexample :
    unicode_in_range tabExampleLine 0 4 true false false ≠ [32, 32, 32, 32] := by
  decide

/-- Claim C2, witness: the amended tab step applied to the example line at
cell 0 with fuel 3. -/
theorem C2_tab_flatten_witness :
    uir_go tabExampleLine 4 true false (3 + 1) 0 =
      9 :: uir_go tabExampleLine 4 true false 3
        (skipSpaces tabExampleLine 4 0
          (if 1 < (text_in_cell (cpuAt tabExampleLine 0) tabExampleLine.text_cache).length then
            (text_in_cell (cpuAt tabExampleLine 0) tabExampleLine.text_cache).getD 1 0
          else 0) + 1) :=
  C2_tab_flatten.1 tabExampleLine 4 true false 3 0 (by decide) (by decide) (by decide)

/-- Claim C4 (amended): during ANSI serialization, for a cell whose emitted
text starts with a tab character the first emitted code point stays the tab
(it is not replaced by a space), the per-cell emission is truncated to that
one code point, and up to the cached skip count of following space cells
(bounded by the serialization limit) are skipped without being emitted. -/
theorem C4_ansi_tab (l : Line) (limit pos : Nat)
    (h : ((text_in_cell_ansi (cpuAt l pos) l.text_cache).1).headD 0 = 9) :
    (ansi_text_step l limit pos).1 = [9] ∧
      (ansi_text_step l limit pos).2.2 =
        skipSpaces l limit pos
          (if 1 < (text_in_cell_ansi (cpuAt l pos) l.text_cache).1.length then
            (text_in_cell_ansi (cpuAt l pos) l.text_cache).1.getD 1 0
          else 0) := by
  unfold ansi_text_step
  cases hs : (text_in_cell_ansi (cpuAt l pos) l.text_cache).1 with
  | nil => rw [hs] at h; simp at h
  | cons a t =>
    rw [hs] at h
    simp only [List.headD_cons] at h
    subst h
    cases t with
    | nil => simp [hs]
    | cons b u => simp [hs]

/-- Claim C4, witness: the amended tab handling applied to the example line
(cell 0 an interned tab with skip count 3, cells 1..3 spaces) at position 0
with serialization limit 4. -/
theorem C4_ansi_tab_witness :
    (ansi_text_step tabExampleLine 4 0).1 = [9] ∧
      (ansi_text_step tabExampleLine 4 0).2.2 =
        skipSpaces tabExampleLine 4 0
          (if 1 < (text_in_cell_ansi (cpuAt tabExampleLine 0) tabExampleLine.text_cache).1.length
          then (text_in_cell_ansi (cpuAt tabExampleLine 0) tabExampleLine.text_cache).1.getD 1 0
          else 0) :=
  C4_ansi_tab tabExampleLine 4 0 (by decide)

/-- Claim C4, counterexample to the claim as stated: serializing the example
tab line, the cell's emitted code point is the tab (9), not a space — the
first emitted code point is not replaced with a space. -/
theorem C4_counterexample :
    (line_as_ansi tabExampleLine false emptyPool 0 (some blank_gpu_cell) 0 4 0).1.buf = [9] ∧
      ¬(line_as_ansi tabExampleLine false emptyPool 0
          (some blank_gpu_cell) 0 4 0).1.buf.headD 0 = 32 := by
  decide

/-- Claim C3: line_url_start_at always returns a value in `[0, xnum]`, and
returns xnum (no URL found) whenever `x ≥ xnum` or
`xnum ≤ MIN_URL_LEN + 3 = 8`. -/
theorem C3_url_start_bounds (l : Line) (iuc : Nat → Bool) (prefixes : List (List Nat))
    (max_prefix_len x : Nat) :
    line_url_start_at l iuc prefixes max_prefix_len x ≤ l.xnum ∧
      (x ≥ l.xnum ∨ l.xnum ≤ 8 →
        line_url_start_at l iuc prefixes max_prefix_len x = l.xnum) := by
  have hfirst : ∀ t, url_first_attempt l iuc prefixes max_prefix_len x = some t →
      t ≤ l.xnum := by
    intro t h1
    simp only [url_first_attempt] at h1
    generalize hL : (if x < 2 then 0 else x - 2) = lim0 at h1
    generalize hds : find_colon_slash l iuc (x + max_prefix_len + 3) lim0 = ds1 at h1
    split at h1
    · have h2 := has_url_prefix_at_le l prefixes _ _ t h1
      have h3 := find_colon_slash_le l iuc (x + max_prefix_len + 3) lim0
      rw [hds] at h3
      have h4 := Nat.le_trans
        (Nat.min_le_right (x + max_prefix_len + 3) (l.xnum - 1)) (Nat.sub_le l.xnum 1)
      omega
    · exact absurd h1 (by simp)
  have hsecond : url_second_attempt l iuc prefixes x ≤ l.xnum := by
    simp only [url_second_attempt]
    split
    · exact Nat.le_refl _
    · cases h2 : has_url_prefix_at l prefixes (find_colon_slash l iuc x 0) 0 with
      | none => simp
      | some t =>
        simp only []
        have h1 := has_url_prefix_at_le l prefixes _ _ t h2
        have h3 := find_colon_slash_le l iuc x 0
        have h4 := Nat.le_trans (Nat.min_le_right x (l.xnum - 1)) (Nat.sub_le l.xnum 1)
        omega
  constructor
  · by_cases hg : x ≥ l.xnum ∨ l.xnum ≤ MIN_URL_LEN + 3
    · simp [line_url_start_at, hg]
    · simp only [line_url_start_at, if_neg hg]
      cases h1 : url_first_attempt l iuc prefixes max_prefix_len x with
      | none => exact hsecond
      | some t => exact hfirst t h1
  · intro h
    have hg : x ≥ l.xnum ∨ l.xnum ≤ MIN_URL_LEN + 3 := by
      simpa [MIN_URL_LEN] using h
    simp [line_url_start_at, hg]

/-- Claim C3, witness: at x = 99 on a one-column line the search refuses and
returns xnum. -/
theorem C3_url_start_bounds_witness :
    line_url_start_at blankCellLine (fun _ => false) [] 0 99 = blankCellLine.xnum :=
  (C3_url_start_bounds blankCellLine (fun _ => false) [] 0 99).2 (Or.inl (by decide))

/-- Claim C7 (amended): add_combining_char fails exactly when the column is out
of range (ValueError) or the cell at `x` is any multi-cell cell — anchor or
continuation (IndexError); in every other case it succeeds, the cell's
`ch_is_idx` is set, and the cell's cached text becomes its previous text with
the code point appended, under a newly interned text-cache index. -/
theorem C7_add_combining (l : Line) (x ch : Nat) (hc : l.cpu_cells.length = l.xnum) :
    ((x ≥ l.xnum ∨ (cpuAt l x).is_multicell = true) ↔
        isOkE (add_combining_char l x ch) = false) ∧
      (∀ m, add_combining_char l x ch = Except.ok m →
        (cpuAt m x).ch_is_idx = true ∧
          text_in_cell (cpuAt m x) m.text_cache =
            text_in_cell (cpuAt l x) l.text_cache ++ [ch]) := by
  by_cases hx : x ≥ l.xnum
  · constructor
    · simp [add_combining_char, hx, isOkE]
    · intro m hm
      simp [add_combining_char, hx] at hm
  · by_cases hmc : (cpuAt l x).is_multicell = true
    · constructor
      · simp [add_combining_char, hx, hmc, isOkE]
      · intro m hm
        simp [add_combining_char, hx, hmc] at hm
    · have hx2 : x < l.cpu_cells.length := by omega
      constructor
      · simp [add_combining_char, hx, hmc, isOkE]
      · intro m hm
        simp only [add_combining_char, if_neg hx, hmc, Bool.false_eq_true, if_false,
          Except.ok.injEq] at hm
        subst hm
        simp only [cpuAt]
        rw [getD_set_self _ _ l.cpu_cells x hx2]
        exact ⟨rfl,
          tc_get_or_insert_chars l.text_cache (text_in_cell (cpuAt l x) l.text_cache ++ [ch])⟩

/-- Claim C7, witness: appending a combining acute accent to a plain letter
cell succeeds and the cell's cached text becomes the letter followed by the
accent. -/
theorem C7_add_combining_witness :
    ((0 ≥ charLine.xnum ∨ (cpuAt charLine 0).is_multicell = true) ↔
        isOkE (add_combining_char charLine 0 769) = false) ∧
      (∀ m, add_combining_char charLine 0 769 = Except.ok m →
        (cpuAt m 0).ch_is_idx = true ∧
          text_in_cell (cpuAt m 0) m.text_cache =
            text_in_cell (cpuAt charLine 0) charLine.text_cache ++ [769]) :=
  C7_add_combining charLine 0 769 (by decide)

/-- Claim C7, counterexample to the claim as stated: the anchor cell of a
multi-cell glyph is in range and is not a continuation cell, yet
add_combining_char fails on it (the code rejects every multi-cell cell, not
only continuations). -/
theorem C7_counterexample :
    0 < mcLine2.xnum ∧ is_continuation_cell (cpuAt mcLine2 0) = false ∧
      errOfE (add_combining_char mcLine2 0 65) = some LineError.indexError := by
  decide

/-- Claim C9: apply_cursor with clear_char = false copies the cursor's GPU
fields (colours and attributes) onto each cell of `[at, min(at + num, xnum))`
while preserving that cell's mark attribute and its three sprite coordinates,
and leaves every CPU cell and every cell outside the range unchanged. -/
theorem C9_apply_cursor (l : Line) (cur : Cursor) (at_ num : Nat)
    (hg : l.gpu_cells.length = l.xnum) :
    (line_apply_cursor l cur at_ num false).cpu_cells = l.cpu_cells ∧
      (line_apply_cursor l cur at_ num false).xnum = l.xnum ∧
      (∀ i, i < l.xnum → at_ ≤ i → i < at_ + num →
        gpuAt (line_apply_cursor l cur at_ num false) i =
          { cursor_as_gpu_cell cur with
            attrs := { (cursor_as_gpu_cell cur).attrs with mark := (gpuAt l i).attrs.mark }
            sprite_x := (gpuAt l i).sprite_x
            sprite_y := (gpuAt l i).sprite_y
            sprite_z := (gpuAt l i).sprite_z }) ∧
      (∀ i, ¬(at_ ≤ i ∧ i < at_ + num) →
        gpuAt (line_apply_cursor l cur at_ num false) i = gpuAt l i) := by
  refine ⟨rfl, rfl, ?_, ?_⟩
  · intro i hi h1 h2
    have hi2 : i < l.gpu_cells.length := by omega
    simp only [line_apply_cursor, Bool.false_eq_true, if_false, gpuAt]
    rw [mapFromIdx_getD, if_pos hi2,
      if_pos (show at_ ≤ 0 + i ∧ 0 + i < l.xnum ∧ 0 + i < at_ + num by omega)]
  · intro i hni
    by_cases hi2 : i < l.gpu_cells.length
    · simp only [line_apply_cursor, Bool.false_eq_true, if_false, gpuAt]
      rw [mapFromIdx_getD, if_pos hi2, if_neg (by simp only [Nat.zero_add]; tauto)]
    · simp only [line_apply_cursor, Bool.false_eq_true, if_false, gpuAt]
      rw [mapFromIdx_getD, if_neg hi2, getD_of_length_le _ _ _ (by omega)]

/-- Claim C9, witness: applying the example cursor to cell 1 of the styled
example line leaves cell 0 untouched and gives cell 1 the cursor's GPU fields
with its own mark and sprite coordinates preserved. -/
theorem C9_apply_cursor_witness :
    gpuAt (line_apply_cursor styledLine2 exCursor 1 1 false) 0 = gpuAt styledLine2 0 ∧
      gpuAt (line_apply_cursor styledLine2 exCursor 1 1 false) 1 =
        { cursor_as_gpu_cell exCursor with
          attrs := { (cursor_as_gpu_cell exCursor).attrs with
            mark := (gpuAt styledLine2 1).attrs.mark }
          sprite_x := (gpuAt styledLine2 1).sprite_x
          sprite_y := (gpuAt styledLine2 1).sprite_y
          sprite_z := (gpuAt styledLine2 1).sprite_z } :=
  ⟨(C9_apply_cursor styledLine2 exCursor 1 1 (by decide)).2.2.2 0 (by decide),
    (C9_apply_cursor styledLine2 exCursor 1 1 (by decide)).2.2.1 1 (by decide) (by decide)
      (by decide)⟩

/-- Claim C10: when set_text is called with `offset + sz` greater than the
length of `src`, the bounds check fires before any cell is written: it fails
with a ValueError and returns the line completely unchanged (the failure is
atomic). -/
theorem C10_set_text_bounds (l : Line) (src : List Nat) (offset sz : Nat) (cur : Cursor)
    (h : src.length < offset + sz) :
    set_text l src offset sz cur = (some LineError.valueError, l) := by
  simp [set_text, h]

/-- Claim C10, witness: blitting one code point at offset 1 of a one-element
source fails with ValueError and leaves the line unchanged. -/
theorem C10_set_text_bounds_witness :
    set_text charLine [97] 1 1 exCursor = (some LineError.valueError, charLine) :=
  C10_set_text_bounds charLine [97] 1 1 exCursor (by decide)

end KittyLine
